import Mathlib

/-!
Verification of the job-posting form validator and state controller
(src/src/components/JobPostingForm.tsx).

The zod schema `formSchema`, the checkbox toggle handler, the radio-group
visibility handler and the submit handler are shallowly embedded below.
Strings keep their JavaScript meaning (length in code units, here code
points; all literals involved are ASCII so the two agree). Dates are
embedded as integer millisecond timestamps, ages as integers.
-/

namespace JobPostingForm

/-- One JavaScript day in milliseconds, used by `maxDate.setDate(getDate() + 60)`. -/
def dayMs : Int := 86400000

/-- The `ageRequirement` enum `z.enum(["any", "18-35", "custom"])`. -/
inductive AgeReq where
  | any
  | r18_35
  | custom
deriving DecidableEq, Repr

/-- The form draft: one field per entry of `formSchema` / `defaultValues`.
Optional numbers and the optional date are `Option`; `benefits` is the
ordered array `z.array(z.string())`. -/
structure Draft where
  jobTitle : String
  company : String
  location : String
  jobDescription : String
  salary : Option String
  ageRequirement : AgeReq
  ageFrom : Option Int
  ageTo : Option Int
  benefits : List String
  applicationDeadline : Option Int
  viberNumber : String
deriving DecidableEq, Repr

/-- The regex `^09\d\x7b7,9\x7d$` from `formSchema.viberNumber`: the literal
characters 0 then 9, followed by 7 to 9 further digits. -/
def viberRegexMatch (s : String) : Bool :=
  match s.data with
  | a :: b :: rest =>
      a == '0' && b == '9' && decide (7 ≤ rest.length) && decide (rest.length ≤ 9) &&
        rest.all Char.isDigit
  | _ => false

/-- Per-field errors of `z.number().min(18).max(100).optional()` for
`ageFrom` / `ageTo`: absent values pass, present values must lie in 18..100. -/
def optAgeErrors (field : String) (v : Option Int) : List (String × String) :=
  match v with
  | none => []
  | some n =>
      if n < 18 then [(field, "Number must be greater than or equal to 18")]
      else if 100 < n then [(field, "Number must be less than or equal to 100")]
      else []

/-- The per-field (base object) checks of `formSchema`, in schema order.
`salary`, `ageRequirement` and `benefits` carry no constraint beyond their
type; `applicationDeadline` is `z.date({required_error})`, presence only. -/
def fieldErrors (d : Draft) : List (String × String) :=
  (if d.jobTitle.length < 3 then
    [("jobTitle", "Job title must be at least 3 characters")] else []) ++
  (if d.company.length < 2 then
    [("company", "Company name must be at least 2 characters")] else []) ++
  (if d.location.length < 2 then
    [("location", "Location is required")] else []) ++
  (if d.jobDescription.length < 20 then
    [("jobDescription", "Job description must be at least 20 characters")] else []) ++
  optAgeErrors "ageFrom" d.ageFrom ++
  optAgeErrors "ageTo" d.ageTo ++
  (match d.applicationDeadline with
   | none => [("applicationDeadline", "Application deadline is required")]
   | some _ => []) ++
  (if viberRegexMatch d.viberNumber then [] else
    [("viberNumber", "Viber number must start with 09 and be valid")])

/-- The `.refine` predicate: when `ageRequirement` is custom, both bounds
must be defined and `ageFrom <= ageTo`; otherwise the refinement passes. -/
def refineOk (d : Draft) : Bool :=
  match d.ageRequirement with
  | .custom =>
      match d.ageFrom, d.ageTo with
      | some f, some t => decide (f ≤ t)
      | _, _ => false
  | _ => true

/-- The message attached by the `.refine` at path `["ageTo"]`. -/
def ageRangeMsg : String :=
  "Invalid age range. \x27From\x27 age must be less than or equal to \x27To\x27 age"

/-- Full zod validation of the schema. The base object is parsed first,
collecting one error per failing field check. As in zod v3, check failures
(string minima, the regex, number bounds) only mark the parse dirty and the
`.refine` still runs, appending its error at path `["ageTo"]`; the parse is
aborted - skipping the refinement - only when a field fails with
invalid_type, which for this typed draft can only mean the missing required
`applicationDeadline`. Result `[]` means the draft parsed. -/
def validate (d : Draft) : List (String × String) :=
  if d.applicationDeadline.isNone then fieldErrors d
  else if refineOk d then fieldErrors d
  else fieldErrors d ++ [("ageTo", ageRangeMsg)]

/-- The `disabled` predicate of the deadline `Calendar`:
`date < new Date() || date > maxDate` with `maxDate` 60 days after now. -/
def calendarDisabled (now d : Int) : Bool :=
  decide (d < now) || decide (now + 60 * dayMs < d)

/-- `defaultValues` of `useForm`: the empty draft created on mount and
restored by `form.reset()`. Fields missing from `defaultValues`
(`ageFrom`, `ageTo`, `applicationDeadline`) are undefined. -/
def initialDraft : Draft :=
  { jobTitle := ""
    company := ""
    location := ""
    jobDescription := ""
    salary := some ""
    ageRequirement := .any
    ageFrom := none
    ageTo := none
    benefits := []
    applicationDeadline := none
    viberNumber := "" }

/-- The checkbox handler `onCheckedChange`: the checkbox is checked exactly
when the id is in the array, so the callback receives `checked = true`
exactly when the id was absent; it then appends, otherwise it filters. -/
def toggleBenefit (l : List String) (id : String) : List String :=
  if l.contains id then l.filter (fun v => v ≠ id) else l ++ [id]

/-- Component state: the form draft, the `showCustomAge` boolean of
`useState(false)`, and how many times the `onSuccess` callback ran. -/
structure FormState where
  draft : Draft
  showCustomAge : Bool
  successCalls : Nat
deriving DecidableEq, Repr

/-- Mount state: empty draft, age-range sub-fields hidden, no callback yet. -/
def initState : FormState :=
  { draft := initialDraft, showCustomAge := false, successCalls := 0 }

/-- The user-visible operations of the component. -/
inductive Op where
  | setJobTitle (v : String)
  | setCompany (v : String)
  | setLocation (v : String)
  | setJobDescription (v : String)
  | setSalary (v : Option String)
  | selectAgeRequirement (v : AgeReq)
  | setAgeFrom (v : Option Int)
  | setAgeTo (v : Option Int)
  | toggleBenefitOp (id : String)
  | setDeadline (v : Option Int)
  | setViberNumber (v : String)
  | submit
deriving DecidableEq, Repr

/-- One step of the component. Field setters write through `field.onChange`.
`selectAgeRequirement` is the RadioGroup `onValueChange`: it stores the value
and sets `showCustomAge` to whether the value is custom. `submit` is
`form.handleSubmit(onSubmit)`: on a valid draft it runs `onSubmit`, which
resets the draft to `defaultValues` (leaving `showCustomAge` alone) and calls
`onSuccess` once; on an invalid draft it only reports the errors. -/
def applyOp (s : FormState) : Op → FormState
  | .setJobTitle v => { s with draft := { s.draft with jobTitle := v } }
  | .setCompany v => { s with draft := { s.draft with company := v } }
  | .setLocation v => { s with draft := { s.draft with location := v } }
  | .setJobDescription v => { s with draft := { s.draft with jobDescription := v } }
  | .setSalary v => { s with draft := { s.draft with salary := v } }
  | .selectAgeRequirement v =>
      { s with draft := { s.draft with ageRequirement := v },
               showCustomAge := decide (v = AgeReq.custom) }
  | .setAgeFrom v => { s with draft := { s.draft with ageFrom := v } }
  | .setAgeTo v => { s with draft := { s.draft with ageTo := v } }
  | .toggleBenefitOp id =>
      { s with draft := { s.draft with benefits := toggleBenefit s.draft.benefits id } }
  | .setDeadline v => { s with draft := { s.draft with applicationDeadline := v } }
  | .setViberNumber v => { s with draft := { s.draft with viberNumber := v } }
  | .submit =>
      if validate s.draft = [] then
        { draft := initialDraft
          showCustomAge := s.showCustomAge
          successCalls := s.successCalls + 1 }
      else s

/-- Run a sequence of operations from the mount state. -/
def run (ops : List Op) : FormState :=
  ops.foldl applyOp initState

/-- The field names of the schema, the key space of the error mapping. -/
def fieldNames : List String :=
  ["jobTitle", "company", "location", "jobDescription", "salary", "ageRequirement",
   "ageFrom", "ageTo", "benefits", "applicationDeadline", "viberNumber"]

/-- A concrete draft on which every rule of the schema passes. -/
def validBase : Draft :=
  { jobTitle := "Sales Representative"
    company := "Acme"
    location := "Yangon"
    jobDescription := "Sell products to customers every day in the shop."
    salary := some ""
    ageRequirement := .any
    ageFrom := none
    ageTo := none
    benefits := []
    applicationDeadline := some 1760140800000
    viberNumber := "0912345678" }

/-- A valid component state, draft `validBase`, before any submission. -/
def validState : FormState :=
  { draft := validBase, showCustomAge := false, successCalls := 0 }

/-- A state whose draft uses a custom age range, sub-fields visible. -/
def customState : FormState :=
  { draft := { validBase with ageRequirement := .custom, ageFrom := some 20, ageTo := some 30 },
    showCustomAge := true, successCalls := 0 }

/-- An arbitrary fixed timestamp standing for the current day: the embedded
validator never reads the current date, so any value works. -/
def c1Today : Int := 1760140800000

/-- An otherwise valid draft whose `ageFrom` lies outside 18..100 while the
age requirement is `any`. -/
def c3Draft : Draft := { validBase with ageFrom := some 10 }

/-- A custom-age draft with both bounds missing and the required application
deadline missing as well; every other field is valid. -/
def c4Draft : Draft :=
  { validBase with ageRequirement := .custom, applicationDeadline := none }

/-- A custom-age draft whose only violation is `ageFrom > ageTo`. -/
def c4wDraft : Draft :=
  { validBase with ageRequirement := .custom, ageFrom := some 30, ageTo := some 20 }

/-- Operation sequence: fill in every field validly with a custom age range,
then submit. -/
def c2Ops : List Op :=
  [ .setJobTitle "Sales Representative"
  , .setCompany "Acme"
  , .setLocation "Yangon"
  , .setJobDescription "Sell products to customers every day in the shop."
  , .setDeadline (some 1760140800000)
  , .setViberNumber "0912345678"
  , .selectAgeRequirement .custom
  , .setAgeFrom (some 20)
  , .setAgeTo (some 30)
  , .submit ]

/-- The per-field rule of an optional age bound: absent, or inside 18..100. -/
abbrev ageFieldOk : Option Int → Prop
  | none => True
  | some n => 18 ≤ n ∧ n ≤ 100

/-- All per-field rules other than the two optional age bounds. -/
abbrev perFieldOkExceptAges (d : Draft) : Prop :=
  3 ≤ d.jobTitle.length ∧ 2 ≤ d.company.length ∧ 2 ≤ d.location.length ∧
  20 ≤ d.jobDescription.length ∧ d.applicationDeadline.isSome = true ∧
  viberRegexMatch d.viberNumber = true

/-- The cross-field condition of the `.refine`: both age bounds present and
`ageFrom` at most `ageTo`. -/
abbrev customRangeOk (d : Draft) : Prop :=
  match d.ageFrom, d.ageTo with
  | some f, some t => f ≤ t
  | _, _ => False

/-- Select `any` and then `custom` again, the hide-and-reshow round trip. -/
def reselectCustom (s : FormState) : FormState :=
  applyOp (applyOp s (Op.selectAgeRequirement AgeReq.any)) (Op.selectAgeRequirement AgeReq.custom)

theorem toggle_of_not_mem (l : List String) (id : String) (h : id ∉ l) :
    toggleBenefit l id = l ++ [id] := by
  simp [toggleBenefit, h]

theorem toggle_of_mem (l : List String) (id : String) (h : id ∈ l) :
    toggleBenefit l id = l.filter (fun v => v ≠ id) := by
  simp [toggleBenefit, h]

theorem toggle_toggle_mem_iff (l : List String) (id x : String) :
    x ∈ toggleBenefit (toggleBenefit l id) id ↔ x ∈ l := by
  by_cases h : id ∈ l
  · rw [toggle_of_mem l id h]
    have h2 : id ∉ l.filter (fun v => v ≠ id) := by simp
    rw [toggle_of_not_mem _ _ h2]
    by_cases hx : x = id
    · subst hx; simp [h]
    · simp [hx]
  · rw [toggle_of_not_mem l id h]
    have h2 : id ∈ l ++ [id] := by simp
    rw [toggle_of_mem _ _ h2]
    by_cases hx : x = id
    · subst hx; simp [h]
    · simp [hx]

theorem toggle_toggle_perm (l : List String) (id : String) (h : l.Nodup) :
    (toggleBenefit (toggleBenefit l id) id).Perm l := by
  by_cases hm : id ∈ l
  · rw [toggle_of_mem l id hm]
    have h2 : id ∉ l.filter (fun v => v ≠ id) := by simp
    rw [toggle_of_not_mem _ _ h2]
    have he : l.erase id = l.filter (fun v => v ≠ id) := by
      simpa using List.Nodup.erase_eq_filter h id
    rw [← he]
    exact (List.perm_append_singleton _ _).trans (List.perm_cons_erase hm).symm
  · rw [toggle_of_not_mem l id hm]
    have h2 : id ∈ l ++ [id] := by simp
    rw [toggle_of_mem _ _ h2]
    have : (l ++ [id]).filter (fun v => v ≠ id) = l := by
      rw [List.filter_append]
      have hl : l.filter (fun v => v ≠ id) = l :=
        List.filter_eq_self.mpr (fun a ha => by
          simp only [decide_eq_true_iff]
          exact fun e => hm (e ▸ ha))
      have hid : ([id] : List String).filter (fun v => v ≠ id) = [] := by simp
      rw [hl, hid, List.append_nil]
    rw [this]

theorem toggle_nodup (l : List String) (id : String) (h : l.Nodup) :
    (toggleBenefit l id).Nodup := by
  by_cases hm : id ∈ l
  · rw [toggle_of_mem l id hm]
    exact h.filter _
  · rw [toggle_of_not_mem l id hm]
    simp [List.nodup_append, h, hm]

theorem foldl_toggle_nodup (ids : List String) :
    ∀ l : List String, l.Nodup → (ids.foldl toggleBenefit l).Nodup := by
  induction ids with
  | nil => exact fun l h => h
  | cons a t ih => exact fun l h => ih _ (toggle_nodup l a h)

/-- C7: toggling any benefit id twice in succession returns the benefits
collection to its original contents: membership is restored for every
element, and for duplicate-free collections (the only reachable ones) the
result is a permutation of the original. -/
theorem toggle_twice_restores :
    (∀ (l : List String) (id x : String),
       x ∈ toggleBenefit (toggleBenefit l id) id ↔ x ∈ l) ∧
    (∀ (l : List String) (id : String), l.Nodup →
       (toggleBenefit (toggleBenefit l id) id).Perm l) :=
  ⟨toggle_toggle_mem_iff, toggle_toggle_perm⟩

/-- Witness for C7 at concrete inputs. -/
theorem toggle_twice_restores_witness :
    ("flexible-hours" ∈
        toggleBenefit (toggleBenefit ["students-ok", "flexible-hours"] "students-ok") "students-ok"
      ↔ "flexible-hours" ∈ ["students-ok", "flexible-hours"]) ∧
    (toggleBenefit (toggleBenefit ["students-ok", "flexible-hours"] "flexible-hours") "flexible-hours").Perm
      ["students-ok", "flexible-hours"] :=
  ⟨toggle_twice_restores.1 _ _ _, toggle_twice_restores.2 _ _ (by decide)⟩

/-- C8: the benefits collection has set semantics: it starts empty, toggling
an absent id appends it, toggling a present id removes every copy of it (so
the id is gone afterwards), and no sequence of toggles starting from the
empty collection ever creates a duplicate entry. -/
theorem benefits_set_semantics :
    initialDraft.benefits = [] ∧
    (∀ (l : List String) (id : String), id ∉ l → toggleBenefit l id = l ++ [id]) ∧
    (∀ (l : List String) (id : String), id ∈ l →
       toggleBenefit l id = l.filter (fun v => v ≠ id)) ∧
    (∀ (l : List String) (id : String), id ∈ l → id ∉ toggleBenefit l id) ∧
    (∀ ids : List String, (ids.foldl toggleBenefit []).Nodup) :=
  ⟨rfl, toggle_of_not_mem, toggle_of_mem,
   fun l id h => by rw [toggle_of_mem l id h]; simp,
   fun ids => foldl_toggle_nodup ids [] (by simp)⟩

/-- Witness for C8 at concrete inputs. -/
theorem benefits_set_semantics_witness :
    toggleBenefit [] "no-resume" = [] ++ ["no-resume"] ∧
    toggleBenefit ["no-resume"] "no-resume" = ["no-resume"].filter (fun v => v ≠ "no-resume") ∧
    "no-resume" ∉ toggleBenefit ["no-resume"] "no-resume" ∧
    (List.foldl toggleBenefit [] ["no-resume", "students-ok", "no-resume"]).Nodup :=
  ⟨benefits_set_semantics.2.1 [] "no-resume" (by decide),
   benefits_set_semantics.2.2.1 ["no-resume"] "no-resume" (by decide),
   benefits_set_semantics.2.2.2.1 ["no-resume"] "no-resume" (by decide),
   benefits_set_semantics.2.2.2.2 ["no-resume", "students-ok", "no-resume"]⟩

/-- C9: hiding the age-range sub-fields does not clear their values:
switching the age requirement from custom to any and back to custom leaves
`ageFrom` and `ageTo` exactly as entered, with the fields visible again. -/
theorem age_values_survive_hide (s : FormState) (_h : s.draft.ageRequirement = AgeReq.custom) :
    (reselectCustom s).draft.ageFrom = s.draft.ageFrom ∧
    (reselectCustom s).draft.ageTo = s.draft.ageTo ∧
    (reselectCustom s).draft.ageRequirement = AgeReq.custom ∧
    (reselectCustom s).showCustomAge = true := by
  simp [reselectCustom, applyOp]

/-- Witness for C9 at the concrete custom-age state. -/
theorem age_values_survive_hide_witness :
    (reselectCustom customState).draft.ageFrom = customState.draft.ageFrom ∧
    (reselectCustom customState).draft.ageTo = customState.draft.ageTo ∧
    (reselectCustom customState).draft.ageRequirement = AgeReq.custom ∧
    (reselectCustom customState).showCustomAge = true :=
  age_values_survive_hide customState rfl

theorem optAgeErrors_keys (f : String) (v : Option Int) (e : String × String)
    (he : e ∈ optAgeErrors f v) : e.1 = f := by
  cases v with
  | none => simp [optAgeErrors] at he
  | some n =>
      simp only [optAgeErrors] at he
      split_ifs at he <;> simp_all

theorem fieldErrors_keys (d : Draft) (e : String × String) (he : e ∈ fieldErrors d) :
    e.1 ∈ fieldNames := by
  unfold fieldErrors at he
  simp only [List.mem_append] at he
  rcases he with ((((((h | h) | h) | h) | h) | h) | h) | h
  · split_ifs at h <;> simp_all [fieldNames]
  · split_ifs at h <;> simp_all [fieldNames]
  · split_ifs at h <;> simp_all [fieldNames]
  · split_ifs at h <;> simp_all [fieldNames]
  · have := optAgeErrors_keys _ _ _ h
    simp [this, fieldNames]
  · have := optAgeErrors_keys _ _ _ h
    simp [this, fieldNames]
  · cases hd : d.applicationDeadline <;> rw [hd] at h <;> simp_all [fieldNames]
  · split_ifs at h <;> simp_all [fieldNames]

theorem optAgeErrors_msgs (f : String) (v : Option Int) (e : String × String)
    (he : e ∈ optAgeErrors f v) :
    e.2 = "Number must be greater than or equal to 18" ∨
      e.2 = "Number must be less than or equal to 100" := by
  cases v with
  | none => simp [optAgeErrors] at he
  | some n =>
      simp only [optAgeErrors] at he
      split_ifs at he <;> simp_all

theorem fieldErrors_no_refine_msg (d : Draft) (e : String × String)
    (he : e ∈ fieldErrors d) : e.2 ≠ ageRangeMsg := by
  unfold fieldErrors at he
  simp only [List.mem_append] at he
  rcases he with ((((((h | h) | h) | h) | h) | h) | h) | h
  · split_ifs at h <;> simp_all [ageRangeMsg]
  · split_ifs at h <;> simp_all [ageRangeMsg]
  · split_ifs at h <;> simp_all [ageRangeMsg]
  · split_ifs at h <;> simp_all [ageRangeMsg]
  · rcases optAgeErrors_msgs _ _ _ h with hm | hm <;> simp [hm, ageRangeMsg]
  · rcases optAgeErrors_msgs _ _ _ h with hm | hm <;> simp [hm, ageRangeMsg]
  · cases hd : d.applicationDeadline <;> rw [hd] at h <;> simp_all [ageRangeMsg]
  · split_ifs at h <;> simp_all [ageRangeMsg]

theorem validate_keys (d : Draft) (e : String × String) (he : e ∈ validate d) :
    e.1 ∈ fieldNames := by
  unfold validate at he
  split_ifs at he
  · exact fieldErrors_keys d e he
  · exact fieldErrors_keys d e he
  · rcases List.mem_append.mp he with h | h
    · exact fieldErrors_keys d e h
    · simp only [List.mem_singleton] at h
      simp [h, fieldNames]

/-- C5: submitting a fully valid draft resets every field to the mount-time
default draft and runs the completion callback exactly once. -/
theorem submit_valid_resets_and_notifies (s : FormState) (h : validate s.draft = []) :
    (applyOp s Op.submit).draft = initialDraft ∧
    (applyOp s Op.submit).successCalls = s.successCalls + 1 := by
  simp [applyOp, h]

/-- Witness for C5 at the concrete valid state. -/
theorem submit_valid_resets_and_notifies_witness :
    (applyOp validState Op.submit).draft = initialDraft ∧
    (applyOp validState Op.submit).successCalls = validState.successCalls + 1 :=
  submit_valid_resets_and_notifies validState (by decide)

/-- C6: on an invalid draft, validation is a total function into a list of
field-name/message pairs whose keys are schema field names, and submitting
changes nothing: the draft is not reset and the callback does not run. -/
theorem submit_invalid_preserves_state (s : FormState) (h : validate s.draft ≠ []) :
    applyOp s Op.submit = s ∧
    (∀ e ∈ validate s.draft, e.1 ∈ fieldNames) := by
  refine ⟨by simp [applyOp, h], fun e he => validate_keys s.draft e he⟩

/-- Witness for C6 at the mount state, whose empty draft is invalid. -/
theorem submit_invalid_preserves_state_witness :
    applyOp initState Op.submit = initState ∧
    (∀ e ∈ validate initState.draft, e.1 ∈ fieldNames) :=
  submit_invalid_preserves_state initState (by decide)

theorem applyOp_vis (s : FormState) (op : Op) (hop : op ≠ Op.submit)
    (h : s.showCustomAge = true ↔ s.draft.ageRequirement = AgeReq.custom) :
    (applyOp s op).showCustomAge = true ↔
      (applyOp s op).draft.ageRequirement = AgeReq.custom := by
  cases op <;> simp_all [applyOp]

theorem foldl_vis (ops : List Op) :
    ∀ s : FormState, (∀ op ∈ ops, op ≠ Op.submit) →
      (s.showCustomAge = true ↔ s.draft.ageRequirement = AgeReq.custom) →
      ((ops.foldl applyOp s).showCustomAge = true ↔
        (ops.foldl applyOp s).draft.ageRequirement = AgeReq.custom) := by
  induction ops with
  | nil => exact fun s _ h => h
  | cons a t ih =>
      intro s hall h
      exact ih _ (fun op hop => hall op (List.mem_cons_of_mem _ hop))
        (applyOp_vis s a (hall a (List.mem_cons_self a t)) h)

/-- C2 (amended): the age-range sub-fields are visible exactly when the age
requirement is custom in the mount state and in every state reached without
submitting; a successful submission, however, resets the age requirement to
any while leaving the visibility flag untouched. -/
theorem visibility_matches_custom_without_submit :
    ((run []).showCustomAge = false) ∧
    (∀ ops : List Op, (∀ op ∈ ops, op ≠ Op.submit) →
      ((run ops).showCustomAge = true ↔ (run ops).draft.ageRequirement = AgeReq.custom)) ∧
    (∀ s : FormState, validate s.draft = [] →
      (applyOp s Op.submit).showCustomAge = s.showCustomAge ∧
      (applyOp s Op.submit).draft.ageRequirement = AgeReq.any) := by
  refine ⟨rfl, fun ops hall => foldl_vis ops initState hall (by simp [initState, initialDraft]), ?_⟩
  intro s h
  simp [applyOp, h, initialDraft]

/-- Witness for C2 (amended) at concrete inputs. -/
theorem visibility_matches_custom_without_submit_witness :
    ((run [Op.selectAgeRequirement AgeReq.custom]).showCustomAge = true ↔
      (run [Op.selectAgeRequirement AgeReq.custom]).draft.ageRequirement = AgeReq.custom) ∧
    (applyOp validState Op.submit).draft.ageRequirement = AgeReq.any :=
  ⟨visibility_matches_custom_without_submit.2.1 _ (by simp),
   (visibility_matches_custom_without_submit.2.2 validState (by decide)).2⟩

/-- C2 (counterexample): filling every field validly with a custom age range
and submitting reaches a state where the sub-fields are still visible while
the stored age requirement is any, so the claimed invariant does not survive
a successful submission. -/
theorem submit_breaks_visibility_sync :
    (run c2Ops).showCustomAge = true ∧
    (run c2Ops).draft.ageRequirement = AgeReq.any ∧
    (run c2Ops).successCalls = 1 := by decide

theorem optAgeErrors_eq_nil (f : String) (v : Option Int) (h : ageFieldOk v) :
    optAgeErrors f v = [] := by
  cases v with
  | none => rfl
  | some n =>
      obtain ⟨h1, h2⟩ := h
      simp only [optAgeErrors]
      rw [if_neg (by omega), if_neg (by omega)]

theorem fieldErrors_eq_nil (d : Draft) (hp : perFieldOkExceptAges d)
    (hf : ageFieldOk d.ageFrom) (ht : ageFieldOk d.ageTo) :
    fieldErrors d = [] := by
  obtain ⟨h1, h2, h3, h4, h5, h6⟩ := hp
  obtain ⟨k, hk⟩ := Option.isSome_iff_exists.mp h5
  have n1 : ¬ d.jobTitle.length < 3 := by omega
  have n2 : ¬ d.company.length < 2 := by omega
  have n3 : ¬ d.location.length < 2 := by omega
  have n4 : ¬ d.jobDescription.length < 20 := by omega
  unfold fieldErrors
  rw [optAgeErrors_eq_nil _ _ hf, optAgeErrors_eq_nil _ _ ht, hk,
    if_neg n1, if_neg n2, if_neg n3, if_neg n4]
  simp [h6]

theorem refineOk_of_nonCustom (d : Draft) (hreq : d.ageRequirement ≠ AgeReq.custom) :
    refineOk d = true := by
  cases h : d.ageRequirement with
  | custom => exact absurd h hreq
  | any => simp [refineOk, h]
  | r18_35 => simp [refineOk, h]

theorem validate_eq_nil_of_ok (d : Draft) (hreq : d.ageRequirement ≠ AgeReq.custom)
    (hp : perFieldOkExceptAges d) (hf : ageFieldOk d.ageFrom) (ht : ageFieldOk d.ageTo) :
    validate d = [] := by
  have hno : d.applicationDeadline.isNone = false := by
    obtain ⟨k, hk⟩ := Option.isSome_iff_exists.mp hp.2.2.2.2.1
    simp [hk]
  simp [validate, hno, fieldErrors_eq_nil d hp hf ht, refineOk_of_nonCustom d hreq]

/-- C3 (amended): with a non-custom age requirement the cross-field rule
ignores `ageFrom` and `ageTo`, and validation succeeds for every content of
those two fields that is absent or inside 18..100 (the per-field bound of
the schema still applies to present values), provided the other fields pass. -/
theorem hidden_age_values_ignored_within_bounds (d : Draft)
    (hreq : d.ageRequirement ≠ AgeReq.custom) (hp : perFieldOkExceptAges d)
    (hf : ageFieldOk d.ageFrom) (ht : ageFieldOk d.ageTo) :
    validate d = [] :=
  validate_eq_nil_of_ok d hreq hp hf ht

/-- Witness for C3 (amended): stale in-range bounds left over from a custom
selection are accepted once the requirement is back to any. -/
theorem hidden_age_values_ignored_within_bounds_witness :
    validate { validBase with ageFrom := some 25, ageTo := some 90 } = [] :=
  hidden_age_values_ignored_within_bounds _ (by simp [validBase]) (by decide)
    (by decide) (by decide)

/-- C3 (counterexample): an otherwise fully valid draft with age requirement
any and `ageFrom = 10` is rejected, because the per-field bound 18..100 on a
present `ageFrom` applies even though the cross-field rule ignores it; so
validation is not independent of every `ageFrom`/`ageTo` content. -/
theorem out_of_range_age_rejected_when_hidden :
    c3Draft.ageRequirement = AgeReq.any ∧
    c3Draft.ageFrom = some 10 ∧
    perFieldOkExceptAges c3Draft ∧
    validate c3Draft =
      [("ageFrom", "Number must be greater than or equal to 18")] := by decide

theorem refineOk_eq_false_of_custom (d : Draft) (hreq : d.ageRequirement = AgeReq.custom)
    (hsub : ¬ customRangeOk d) : refineOk d = false := by
  unfold refineOk
  rw [hreq]
  cases hf : d.ageFrom <;> cases ht : d.ageTo <;>
    simp_all [customRangeOk]

/-- C4 (amended): for a custom age requirement, validation fails whenever
the two bounds are not both present with `ageFrom` at most `ageTo`. Whenever
the required deadline is present - so the zod base parse is at worst dirty,
never aborted - the refinement runs even alongside other failing field
checks and attaches its error to `ageTo`; when the deadline is missing, the
base parse aborts, the refinement is skipped, and no refinement error is
attached to `ageTo`. -/
theorem custom_age_range_required (d : Draft)
    (hreq : d.ageRequirement = AgeReq.custom) (hsub : ¬ customRangeOk d) :
    validate d ≠ [] ∧
    (d.applicationDeadline.isSome = true → ("ageTo", ageRangeMsg) ∈ validate d) ∧
    (d.applicationDeadline = none → ("ageTo", ageRangeMsg) ∉ validate d) := by
  have hr : refineOk d = false := refineOk_eq_false_of_custom d hreq hsub
  refine ⟨?_, ?_, ?_⟩
  · cases hd : d.applicationDeadline with
    | none =>
        have h1 : d.applicationDeadline.isNone = true := by simp [hd]
        have hv : validate d = fieldErrors d := by simp [validate, h1]
        rw [hv]
        intro hnil
        have hmem : ("applicationDeadline", "Application deadline is required")
            ∈ fieldErrors d := by
          unfold fieldErrors
          refine List.mem_append_left _ (List.mem_append_right _ ?_)
          rw [hd]
          simp
        rw [hnil] at hmem
        simp at hmem
    | some k =>
        have h1 : d.applicationDeadline.isNone = false := by simp [hd]
        have hv : validate d = fieldErrors d ++ [("ageTo", ageRangeMsg)] := by
          simp [validate, h1, hr]
        rw [hv]
        simp
  · intro hs
    have h1 : d.applicationDeadline.isNone = false := by
      cases hd : d.applicationDeadline <;> simp_all
    have hv : validate d = fieldErrors d ++ [("ageTo", ageRangeMsg)] := by
      simp [validate, h1, hr]
    rw [hv]
    simp
  · intro hd
    have h1 : d.applicationDeadline.isNone = true := by simp [hd]
    have hv : validate d = fieldErrors d := by simp [validate, h1]
    rw [hv]
    intro hmem
    exact fieldErrors_no_refine_msg d _ hmem rfl

/-- Witness for C4 (amended) at a draft whose only violation is an inverted
age range: the error list carries the refinement error at `ageTo`. -/
theorem custom_age_range_required_witness :
    validate c4wDraft ≠ [] ∧ ("ageTo", ageRangeMsg) ∈ validate c4wDraft :=
  have h := custom_age_range_required c4wDraft rfl
    (by intro hc; simp [customRangeOk, c4wDraft, validBase] at hc)
  ⟨h.1, h.2.1 rfl⟩

/-- C4 (counterexample): with a custom age requirement, both bounds missing
and the required application deadline missing as well, validation fails but
its only error key is `applicationDeadline` - no error is attached to
`ageTo`, because the missing required date aborts the zod base parse and an
aborted parse skips the refinement entirely. -/
theorem refine_skipped_when_deadline_missing :
    c4Draft.ageRequirement = AgeReq.custom ∧
    c4Draft.ageFrom = none ∧
    c4Draft.ageTo = none ∧
    validate c4Draft ≠ [] ∧
    (validate c4Draft).map Prod.fst = ["applicationDeadline"] := by decide

/-- C1 (counterexample): with the current day at the arbitrary timestamp
`c1Today`, an otherwise valid draft whose deadline equals today passes
submission-time validation, and so does one 61 days out: the embedded schema
checks only that a deadline is present, never its value. -/
theorem deadline_today_passes_validation :
    ({ validBase with applicationDeadline := some c1Today } : Draft).applicationDeadline
        = some c1Today ∧
    validate { validBase with applicationDeadline := some c1Today } = [] ∧
    validate { validBase with applicationDeadline := some (c1Today + 61 * dayMs) } = [] := by
  decide

theorem validate_validBase_update (dl : Option Int) (vb : String)
    (hdl : dl.isSome = true) (hvb : viberRegexMatch vb = true) :
    validate { validBase with applicationDeadline := dl, viberNumber := vb } = [] := by
  apply validate_eq_nil_of_ok
  · show AgeReq.any ≠ AgeReq.custom
    decide
  · exact ⟨by show (3 : Nat) ≤ ("Sales Representative" : String).length; decide,
      by show (2 : Nat) ≤ ("Acme" : String).length; decide,
      by show (2 : Nat) ≤ ("Yangon" : String).length; decide,
      by show (20 : Nat) ≤ ("Sell products to customers every day in the shop." : String).length
         decide,
      hdl, hvb⟩
  · trivial
  · trivial

/-- C1 (amended): the window (today, today + 60 days] is enforced only by the
calendar picker. For a midnight `mid` of the current day and current
time `now` strictly inside the day, the picker disables today, enables
today + 60 and disables today + 61 (all at midnight), while submission-time
validation accepts an otherwise valid draft with any deadline at all. -/
theorem deadline_window_only_in_picker (mid now : Int)
    (h1 : mid < now) (h2 : now < mid + dayMs) :
    calendarDisabled now mid = true ∧
    calendarDisabled now (mid + 60 * dayMs) = false ∧
    calendarDisabled now (mid + 61 * dayMs) = true ∧
    (∀ t : Int, validate { validBase with applicationDeadline := some t } = []) := by
  simp only [dayMs] at h1 h2
  refine ⟨?_, ?_, ?_, fun t => validate_validBase_update (some t) validBase.viberNumber rfl rfl⟩
  · simp only [calendarDisabled, dayMs, Bool.or_eq_true, decide_eq_true_eq]
    omega
  · simp only [calendarDisabled, dayMs, Bool.or_eq_false_iff, decide_eq_false_iff_not]
    omega
  · simp only [calendarDisabled, dayMs, Bool.or_eq_true, decide_eq_true_eq]
    omega

/-- Witness for C1 (amended) with midnight 0 and current time 1. -/
theorem deadline_window_only_in_picker_witness :
    calendarDisabled 1 0 = true ∧
    calendarDisabled 1 (0 + 60 * dayMs) = false ∧
    calendarDisabled 1 (0 + 61 * dayMs) = true ∧
    validate { validBase with applicationDeadline := some 5 } = [] :=
  have h := deadline_window_only_in_picker 0 1 (by decide) (by decide)
  ⟨h.1, h.2.1, h.2.2.1, h.2.2.2 5⟩

theorem viber_char_iff (s : String) :
    viberRegexMatch s = true ↔
      (s.data.take 2 = ['0', '9'] ∧ s.data.all Char.isDigit = true ∧
       9 ≤ s.length ∧ s.length ≤ 11) := by
  cases s with
  | mk data =>
      rcases data with _ | ⟨a, _ | ⟨b, rest⟩⟩
      · simp [viberRegexMatch, String.length]
      · simp [viberRegexMatch, String.length]
      · simp only [viberRegexMatch, String.length, List.take, List.all_cons,
          List.length_cons, Bool.and_eq_true, beq_iff_eq, decide_eq_true_eq,
          List.cons.injEq, and_true]
        constructor
        · rintro ⟨⟨⟨⟨ha, hb⟩, h7⟩, h9⟩, hall⟩
          subst ha; subst hb
          refine ⟨⟨rfl, rfl⟩, ⟨by decide, by decide, hall⟩, by omega, by omega⟩
        · rintro ⟨⟨ha, hb⟩, ⟨_, _, hall⟩, h9, h11⟩
          subst ha; subst hb
          exact ⟨⟨⟨⟨rfl, rfl⟩, by omega⟩, by omega⟩, hall⟩

theorem validate_validBase_viber (s : String) :
    validate { validBase with viberNumber := s } = [] ↔ viberRegexMatch s = true := by
  constructor
  · intro h
    by_contra hb
    have hb' : viberRegexMatch s = false := by
      cases hvb : viberRegexMatch s
      · rfl
      · exact absurd hvb hb
    have hmem : ("viberNumber", "Viber number must start with 09 and be valid")
        ∈ fieldErrors { validBase with viberNumber := s } := by
      unfold fieldErrors
      refine List.mem_append_right _ ?_
      show ("viberNumber", "Viber number must start with 09 and be valid") ∈
        (if viberRegexMatch s then ([] : List (String × String))
         else [("viberNumber", "Viber number must start with 09 and be valid")])
      rw [hb']
      simp
    have hne : fieldErrors { validBase with viberNumber := s } ≠ [] :=
      List.ne_nil_of_mem hmem
    have h1 : ({ validBase with viberNumber := s } : Draft).applicationDeadline.isNone
        = false := rfl
    have h2 : refineOk { validBase with viberNumber := s } = true := rfl
    have hv : validate { validBase with viberNumber := s }
        = fieldErrors { validBase with viberNumber := s } := by
      simp [validate, h1, h2]
    rw [hv] at h
    exact hne h
  · intro h
    exact validate_validBase_update validBase.applicationDeadline s rfl h

/-- C10: the embedded viber regex accepts exactly the strings that start with
the two characters 0 then 9, consist of digits only and have total length 9
to 11; the four example strings behave as claimed; and an otherwise valid
draft passes validation exactly when its viber number matches. -/
theorem viber_validation_characterization :
    (∀ s : String, viberRegexMatch s = true ↔
      (s.data.take 2 = ['0', '9'] ∧ s.data.all Char.isDigit = true ∧
       9 ≤ s.length ∧ s.length ≤ 11)) ∧
    viberRegexMatch "0912345678" = true ∧
    viberRegexMatch "091234567" = true ∧
    viberRegexMatch "09123456" = false ∧
    viberRegexMatch "08123456789" = false ∧
    (∀ s : String, validate { validBase with viberNumber := s } = []
      ↔ viberRegexMatch s = true) :=
  ⟨viber_char_iff, by decide, by decide, by decide, by decide, validate_validBase_viber⟩

end JobPostingForm
